import Mathlib

/-!
Verification of the MovieZoneBot JSON catalog store (`database.py`).

Two levels of modelling are used:

* A raw, JSON-valued level (`J`, `FileState`, the `*_raw` functions) used for
  the error-handling behaviour of the store: what happens when a durable
  document is absent, malformed, or non-conforming.  Python operations that
  can raise are modelled in `Except PyError`.

* A typed level (`Storage` and the structures `User`, `Admin`, `Movie`,
  `Channel`, `Request`) modelling the store on well-formed documents, i.e.
  documents of the shape produced by `initialize_database` and the write
  operations.  Python dicts are insertion-ordered association lists; keys of
  the form `str(n)` for an integer `n` are modelled by the integer itself
  (decimal rendering of integers is injective), except for the admins and
  channels collections whose removal operations compare arbitrary string
  identifiers against keys, so there keys stay strings.
-/

namespace MovieBot

/-! ## Raw JSON values -/

/-- A JSON value, as produced by Python's `json.load`.  Objects are
insertion-ordered association lists, matching Python dict semantics. -/
inductive J where
  | jnull : J
  | jbool : Bool → J
  | jnum : Int → J
  | jstr : String → J
  | jarr : List J → J
  | jobj : List (String × J) → J

/-- Python exceptions that the store's code paths can raise. -/
inductive PyError where
  | keyError (key : String)
  | attributeError (tyName attrName : String)

/-- The state of one durable collection file on disk. -/
inductive FileState where
  | absent : FileState
  | malformed : FileState
  | stored : List (String × J) → FileState

/-- `load_json` (database.py:46-56): returns the parsed document, or an empty
dict when the file is absent (`FileNotFoundError`) or its content is not
valid JSON (`json.JSONDecodeError`).  Never raises. -/
def load_json_raw : FileState → List (String × J)
  | .absent => []
  | .malformed => []
  | .stored d => d

/-- Lookup in a Python dict: the value at the first (unique) matching key. -/
def dictGet (d : List (String × J)) (k : String) : Option J :=
  (d.find? (fun p => decide (p.1 = k))).map (·.2)

/-- The Python type name of a JSON value, as it appears in an
`AttributeError` message. -/
def pyTypeName : J → String
  | .jnull => "NoneType"
  | .jbool _ => "bool"
  | .jnum _ => "int"
  | .jstr _ => "str"
  | .jarr _ => "list"
  | .jobj _ => "dict"

/-- `v.get(k)` in Python: defined on dicts, raises `AttributeError` on any
other value. -/
def jGet (v : J) (k : String) : Except PyError (Option J) :=
  match v with
  | .jobj d => .ok (dictGet d k)
  | v => .error (.attributeError (pyTypeName v) "get")

/-- `get_movie_details` (database.py:188-191) at the raw level:
`movies = load_json(MOVIES_FILE); return movies["movies"].get(str(movie_id))`.
The subscript `movies["movies"]` raises `KeyError` when the loaded document
has no `"movies"` key — in particular on the empty dict that `load_json`
returns for an absent or malformed file. -/
def get_movie_details_raw (fs : FileState) (movie_id : Int) :
    Except PyError (Option J) :=
  let movies := load_json_raw fs
  match dictGet movies "movies" with
  | none => .error (.keyError "movies")
  | some inner => jGet inner (toString movie_id)

/-- Python `x == n` for a JSON value `x` (as returned by `.get`, where
`none` models Python `None`) and an integer `n`. -/
def isNumEq (v : Option J) (n : Int) : Bool :=
  match v with
  | some (.jnum m) => decide (m = n)
  | _ => false

/-- The list comprehension in `get_movies_by_uploader` (database.py:405-408):
`[movie for movie in movies.values() if movie.get('added_by') == admin_id]`.
Raises as soon as an element has no `.get` attribute. -/
def filterUploader (admin_id : Int) : List J → Except PyError (List J)
  | [] => .ok []
  | v :: rest => do
    let a ← jGet v "added_by"
    let tail ← filterUploader admin_id rest
    if isNumEq a admin_id then .ok (v :: tail) else .ok tail

/-- The sort key `x.get('added_at', '')` of `get_movies_by_uploader`. -/
def uploadKey (v : J) : J :=
  match v with
  | .jobj d => (dictGet d "added_at").getD (.jstr "")
  | _ => .jstr ""

/-- Descending comparison of sort keys (`reverse=True`).  Python compares
two strings or two numbers; on the states reachable here all keys are
strings (non-comparable mixed keys, on which Python would raise
`TypeError`, are mapped to `false`; the comparison is never reached on the
documents this development evaluates, since the comprehension raises
first). -/
def uploadKeyLeDesc (a b : J) : Bool :=
  match uploadKey a, uploadKey b with
  | .jstr x, .jstr y => decide (y ≤ x)
  | .jnum x, .jnum y => decide (y ≤ x)
  | _, _ => false

/-- `get_movies_by_uploader` (database.py:401-412) at the raw level.  Note
the source iterates `movies.values()` — the values of the *top-level*
document `{"next_id": ..., "movies": {...}}` — not
`movies["movies"].values()`: the integer `next_id` value reaches
`movie.get('added_by')` and raises `AttributeError`. -/
def get_movies_by_uploader_raw (fs : FileState) (admin_id : Int)
    (limit : Nat) : Except PyError (List J) := do
  let movies := load_json_raw fs
  let admin_movies ← filterUploader admin_id (movies.map (·.2))
  .ok ((admin_movies.mergeSort uploadKeyLeDesc).take limit)

/-- The movies document as written by `initialize_database`
(database.py:34): `{"next_id": 1, "movies": {}}`. -/
def initialMoviesDoc : List (String × J) :=
  [("next_id", J.jnum 1), ("movies", J.jobj [])]

/-! ## Typed model of the store on well-formed documents -/

/-- A Python dict: an insertion-ordered association list with unique keys. -/
abbrev Dict (κ α : Type) := List (κ × α)

/-- `d.get(k)` / `d[k]` on a present key: the value at the first matching
key. -/
def lookupKey [DecidableEq κ] (d : Dict κ α) (k : κ) : Option α :=
  (d.find? (fun p => decide (p.1 = k))).map (·.2)

/-- `k in d`. -/
def hasKey [DecidableEq κ] (d : Dict κ α) (k : κ) : Bool :=
  d.any (fun p => decide (p.1 = k))

/-- `d[k] = v`: replaces the value at an existing key in place, otherwise
appends the new entry at the end (Python dict insertion order). -/
def setKey [DecidableEq κ] : Dict κ α → κ → α → Dict κ α
  | [], k, v => [(k, v)]
  | p :: rest, k, v => if p.1 = k then (k, v) :: rest else p :: setKey rest k v

/-- `d.values()`, in insertion order. -/
def values (d : Dict κ α) : List α := d.map (·.2)

/-- `del d[k]`: removes the (unique) entry with key `k`. -/
def eraseKey [DecidableEq κ] (d : Dict κ α) (k : κ) : Dict κ α :=
  d.eraseP (fun p => decide (p.1 = k))

/-- A record of `users.json` (database.py:79-85). -/
structure User where
  user_id : Int
  first_name : String
  username : Option String
  joined_at : String
  is_active : Bool
deriving DecidableEq

/-- A record of `admins.json` (database.py:127-133). -/
structure Admin where
  user_id : Int
  short_name : String
  first_name : String
  username : Option String
  added_at : String
deriving DecidableEq

/-- The caller-supplied fields of a movie record, as passed to `add_movie`
(spec §3: title, category tags, language tags, release year, runtime,
rating, download links, uploader identity). -/
structure MovieData where
  title : String
  categories : List String
  languages : List String
  release_year : Int
  runtime : String
  imdb_rating : String
  download_links : List (String × String)
  added_by : Int
deriving DecidableEq

/-- A stored movie record: the caller-supplied data plus the three fields
stamped by `add_movie` (database.py:177-179). -/
structure Movie extends MovieData where
  movie_id : Int
  added_at : String
  download_count : Int
deriving DecidableEq

/-- A record of `channels.json` (database.py:284-289). -/
structure Channel where
  channel_id : String
  channel_name : String
  short_name : String
  added_at : String
deriving DecidableEq

/-- A record of `requests.json` (database.py:333-339), possibly updated by
`update_request_status` (which stamps `updated_at`). -/
structure Request where
  request_id : Int
  user_id : Int
  movie_name : String
  status : String
  requested_at : String
  updated_at : Option String
deriving DecidableEq

/-- The `movies.json` document: `{"next_id": ..., "movies": {...}}`.
Inner keys are `str(movie_id)`, modelled by the integer id. -/
structure MoviesDoc where
  next_id : Int
  movies : Dict Int Movie
deriving DecidableEq

/-- The `requests.json` document: `{"next_id": ..., "requests": {...}}`.
Inner keys are `str(request_id)`, modelled by the integer id. -/
structure RequestsDoc where
  next_id : Int
  requests : Dict Int Request
deriving DecidableEq

/-- The five durable collection documents.  Users are keyed by
`str(user_id)` (modelled by the integer), admins by `str(admin_id)` (kept
as a string because `remove_admin` compares an arbitrary string identifier
against keys), channels by their string channel id. -/
structure Storage where
  usersFile : Dict Int User
  adminsFile : Dict String Admin
  moviesFile : MoviesDoc
  channelsFile : Dict String Channel
  requestsFile : RequestsDoc
deriving DecidableEq

/-- `OWNER_ID` (config.py:17). -/
def OWNER_ID : Int := 5379553841

/-! ## Store operations

Each operation is a function `Storage → ... → Result × Storage`: it loads
the collections it reads from the current storage and returns the storage
with every `save_json` call applied.  Query operations perform no save and
return the storage unchanged.  Timestamps (`datetime.now().isoformat()`)
enter as an explicit `now : String` parameter. -/

/-- `user_exists` (database.py:68-71): `str(user_id) in users`. -/
def user_exists (s : Storage) (user_id : Int) : Bool × Storage :=
  (hasKey s.usersFile user_id, s)

/-- `get_user_role` (database.py:103-114): owner constant first, then admin
collection membership, else plain user. -/
def get_user_role (s : Storage) (user_id : Int) : String × Storage :=
  if user_id = OWNER_ID then ("owner", s)
  else if hasKey s.adminsFile (toString user_id) then ("admin", s)
  else ("user", s)

/-- `add_admin` (database.py:118-136): fails without mutation when the id
is already a key, otherwise inserts the stamped record. -/
def add_admin (s : Storage) (now : String) (admin_id : Int)
    (short_name first_name : String) (username : Option String) :
    Bool × Storage :=
  let key := toString admin_id
  let record : Admin :=
    { user_id := admin_id, short_name := short_name,
      first_name := first_name, username := username, added_at := now }
  if hasKey s.adminsFile key then (false, s)
  else (true, { s with adminsFile := setKey s.adminsFile key record })

/-- `get_admin_info` (database.py:138-141). -/
def get_admin_info (s : Storage) (admin_id : Int) : Option Admin × Storage :=
  (lookupKey s.adminsFile (toString admin_id), s)

/-- `remove_admin` (database.py:143-163): exact key match first; otherwise
the scan deletes the first record whose `short_name` equals the
identifier; otherwise no mutation and `false`. -/
def remove_admin (s : Storage) (identifier : String) : Bool × Storage :=
  if hasKey s.adminsFile identifier then
    (true, { s with adminsFile := eraseKey s.adminsFile identifier })
  else if s.adminsFile.any (fun p => decide (p.2.short_name = identifier))
  then
    (true,
      { s with
        adminsFile :=
          s.adminsFile.eraseP fun p => decide (p.2.short_name = identifier) })
  else (false, s)

/-- `get_all_admins` (database.py:165-168). -/
def get_all_admins (s : Storage) : List Admin × Storage :=
  (values s.adminsFile, s)

/-- `add_movie` (database.py:172-186): takes the id from the counter,
stamps `movie_id`, `added_at` and `download_count = 0`, stores the record
under `str(movie_id)` and advances the counter. -/
def add_movie (s : Storage) (now : String) (data : MovieData) :
    Int × Storage :=
  let doc := s.moviesFile
  let movie_id := doc.next_id
  let movie : Movie :=
    { toMovieData := data, movie_id := movie_id, added_at := now,
      download_count := 0 }
  (movie_id, { s with moviesFile :=
    { next_id := doc.next_id + 1,
      movies := setKey doc.movies movie_id movie } })

/-- `get_movie_details` (database.py:188-191) on a well-formed document. -/
def get_movie_details (s : Storage) (movie_id : Int) :
    Option Movie × Storage :=
  (lookupKey s.moviesFile.movies movie_id, s)

/-- `search_movies` (database.py:193-206): case-insensitive substring
match against the title, collecting matches in collection order and
stopping once `limit` matches are collected (equal to filtering and taking
the first `limit`). -/
def search_movies (s : Storage) (query : String) (limit : Nat) :
    List Movie × Storage :=
  (((values s.moviesFile.movies).filter (fun m =>
      m.title.toLower.containsSubstr query.toLower.toSubstring)).take limit,
   s)

/-- `get_movies_by_first_letter` (database.py:208-221): non-empty title
whose first character, uppercased, equals the uppercased letter; same
early-stop collection as `search_movies`. -/
def get_movies_by_first_letter (s : Storage) (letter : String)
    (limit : Nat) : List Movie × Storage :=
  (((values s.moviesFile.movies).filter (fun m =>
      decide (m.title ≠ "" ∧
        (String.singleton m.title.front).toUpper = letter.toUpper))).take
    limit, s)

/-- The `all_matching` list of `get_movies_by_category`
(database.py:227-239): every movie for the special category `"All 🌐"`,
otherwise the movies whose category list contains the category as an exact
element (the inner loop appends the movie and breaks on the first exact
match). -/
def category_match_list (doc : MoviesDoc) (category : String) :
    List Movie :=
  if category = "All 🌐" then values doc.movies
  else (values doc.movies).filter (fun m => decide (category ∈ m.categories))

/-- The sort comparison of `get_movies_by_category` (database.py:242):
ascending lowercase title, as a stable-sort comparison. -/
def titleLe (a b : Movie) : Bool :=
  decide (a.title.toLower ≤ b.title.toLower)

/-- The full match set after the in-place `all_matching.sort(...)`
(database.py:242): Python's `list.sort` is a stable sort, modelled by
`List.mergeSort`, which is stable. -/
def sorted_match_list (doc : MoviesDoc) (category : String) : List Movie :=
  (category_match_list doc category).mergeSort titleLe

/-- `get_movies_by_category` (database.py:223-250): collect the full match
set, sort it by lowercase title, return the `[offset, offset+limit)`
slice. -/
def get_movies_by_category (s : Storage) (category : String)
    (limit offset : Nat) : List Movie × Storage :=
  let sorted := sorted_match_list s.moviesFile category
  ((sorted.drop offset).take limit, s)

/-- `delete_movie` (database.py:252-263). -/
def delete_movie (s : Storage) (movie_id : Int) : Bool × Storage :=
  if hasKey s.moviesFile.movies movie_id then
    (true, { s with moviesFile := { s.moviesFile with
      movies := eraseKey s.moviesFile.movies movie_id } })
  else (false, s)

/-- `increment_download_count` (database.py:265-272): no-op when the id is
absent, otherwise bumps the stored counter and saves. -/
def increment_download_count (s : Storage) (movie_id : Int) :
    Unit × Storage :=
  if hasKey s.moviesFile.movies movie_id then
    ((), { s with moviesFile := { s.moviesFile with
      movies := s.moviesFile.movies.map (fun p =>
        if p.1 = movie_id then
          (p.1, { p.2 with download_count := p.2.download_count + 1 })
        else p) } })
  else ((), s)

/-- `add_channel` (database.py:276-292). -/
def add_channel (s : Storage) (now : String)
    (channel_id channel_name short_name : String) : Bool × Storage :=
  let record : Channel :=
    { channel_id := channel_id, channel_name := channel_name,
      short_name := short_name, added_at := now }
  if hasKey s.channelsFile channel_id then (false, s)
  else (true, { s with channelsFile := setKey s.channelsFile channel_id record })

/-- `remove_channel` (database.py:294-314): same resolution as
`remove_admin` — exact key first, then first short-name match. -/
def remove_channel (s : Storage) (identifier : String) : Bool × Storage :=
  if hasKey s.channelsFile identifier then
    (true, { s with channelsFile := eraseKey s.channelsFile identifier })
  else if s.channelsFile.any (fun p => decide (p.2.short_name = identifier))
  then
    (true,
      { s with
        channelsFile :=
          s.channelsFile.eraseP fun p =>
            decide (p.2.short_name = identifier) })
  else (false, s)

/-- `get_channel_info` (database.py:316-319). -/
def get_channel_info (s : Storage) (channel_id : String) :
    Option Channel × Storage :=
  (lookupKey s.channelsFile channel_id, s)

/-- `get_all_channels` (database.py:321-324). -/
def get_all_channels (s : Storage) : List Channel × Storage :=
  (values s.channelsFile, s)

/-- `add_movie_request` (database.py:328-344). -/
def add_movie_request (s : Storage) (now : String) (user_id : Int)
    (movie_name : String) : Int × Storage :=
  let request_id := s.requestsFile.next_id
  let r : Request :=
    { request_id := request_id, user_id := user_id,
      movie_name := movie_name, status := "pending", requested_at := now,
      updated_at := none }
  (request_id, { s with requestsFile :=
    { next_id := s.requestsFile.next_id + 1,
      requests := setKey s.requestsFile.requests request_id r } })

/-- An element of the list returned by `get_pending_requests`: the request
record with the looked-up user record attached under the `users` key.
`none` models the empty dict `{}` used when the user id does not
resolve. -/
structure PendingEntry where
  req : Request
  users : Option User
deriving DecidableEq

/-- The `all_pending` list of `get_pending_requests`
(database.py:352-359): the pending requests in collection order, each with
the user lookup attached. -/
def pending_list (s : Storage) : List PendingEntry :=
  ((values s.requestsFile.requests).filter (fun r =>
      decide (r.status = "pending"))).map
    (fun r => { req := r, users := lookupKey s.usersFile r.user_id })

/-- The sort comparison of `get_pending_requests` (database.py:362):
descending request id (`reverse=True`), as a stable-sort comparison. -/
def reqIdGe (a b : PendingEntry) : Bool :=
  decide (b.req.request_id ≤ a.req.request_id)

/-- `get_pending_requests` (database.py:346-367): filter the pending
requests, attach user records, sort by descending request id, return the
`[offset, offset+limit)` slice.  No collection is saved. -/
def get_pending_requests (s : Storage) (limit offset : Nat) :
    List PendingEntry × Storage :=
  let sorted := (pending_list s).mergeSort reqIdGe
  ((sorted.drop offset).take limit, s)

/-- `get_total_pending_requests_count` (database.py:369-376). -/
def get_total_pending_requests_count (s : Storage) : Nat × Storage :=
  (((values s.requestsFile.requests).filter (fun r =>
      decide (r.status = "pending"))).length, s)

/-- `update_request_status` (database.py:378-390): sets the status and
stamps `updated_at` when the id exists, returning the updated record;
otherwise returns nothing and does not mutate. -/
def update_request_status (s : Storage) (now : String) (request_id : Int)
    (status : String) : Option Request × Storage :=
  match lookupKey s.requestsFile.requests request_id with
  | some r =>
    let r' := { r with status := status, updated_at := some now }
    (some r', { s with requestsFile := { s.requestsFile with
      requests := setKey s.requestsFile.requests request_id r' } })
  | none => (none, s)

/-! ## Dictionary lemmas -/

theorem lookupKey_setKey_self [DecidableEq κ] (d : Dict κ α) (k : κ) (v : α) :
    lookupKey (setKey d k v) k = some v := by
  induction d with
  | nil => simp [setKey, lookupKey, List.find?]
  | cons p rest ih =>
    by_cases h : p.1 = k
    · simp [setKey, h, lookupKey, List.find?]
    · simpa [setKey, h, lookupKey, List.find?] using ih

theorem mem_setKey [DecidableEq κ] {d : Dict κ α} {k : κ} {v : α}
    {p : κ × α} (hp : p ∈ setKey d k v) : p = (k, v) ∨ p ∈ d := by
  induction d with
  | nil => simpa [setKey] using hp
  | cons q rest ih =>
    by_cases h : q.1 = k
    · simp only [setKey, if_pos h, List.mem_cons] at hp
      rcases hp with h1 | h1
      · exact Or.inl h1
      · exact Or.inr (List.mem_cons_of_mem _ h1)
    · simp only [setKey, if_neg h, List.mem_cons] at hp
      rcases hp with h1 | h1
      · exact Or.inr (h1 ▸ List.mem_cons_self _ _)
      · rcases ih h1 with h2 | h2
        · exact Or.inl h2
        · exact Or.inr (List.mem_cons_of_mem _ h2)

theorem lookupKey_eq_none_of_forall [DecidableEq κ] {d : Dict κ α} {k : κ}
    (h : ∀ p ∈ d, p.1 ≠ k) : lookupKey d k = none := by
  rw [lookupKey]
  have hnone : d.find? (fun p => decide (p.1 = k)) = none := by
    rw [List.find?_eq_none]
    intro x hx
    simpa using h x hx
  rw [hnone]
  rfl

/-! ## Claim theorems -/

/-- C1: the spec claims that no query operation of the store ever raises on
a missing or malformed durable document, the document being treated as the
empty collection.  The code contradicts this: `load_json` does return an
empty dict for a malformed `movies.json`, but `get_movie_details` then
subscripts `movies["movies"]`, which raises `KeyError` instead of
returning the defined absent result `None`. -/
theorem get_movie_details_keyError_on_malformed :
    get_movie_details_raw FileState.malformed 1 =
      Except.error (PyError.keyError "movies") := rfl

/-- C2: the spec claims `GetMoviesByUploader` filters the movies by
uploader identity.  The code iterates over `movies.values()` — the values
of the top-level `{"next_id": ..., "movies": {...}}` document — so on
every well-formed movies document (here: the initial one, uploader id 5,
default limit 30) the integer `next_id` value reaches
`movie.get('added_by')` and the call raises
`AttributeError: 'int' object has no attribute 'get'` instead of
returning the filtered list (here: the empty list). -/
theorem get_movies_by_uploader_attributeError :
    get_movies_by_uploader_raw (FileState.stored initialMoviesDoc) 5 30 =
      Except.error (PyError.attributeError "int" "get") := rfl

/-- C7: for every store state, caller-supplied movie data and timestamp,
adding the movie and immediately fetching the assigned id returns exactly
the supplied data extended with the three stamped fields: the assigned id,
the added-at timestamp, and a zero download count. -/
theorem add_movie_get_movie_roundtrip (s : Storage) (now : String)
    (data : MovieData) :
    (get_movie_details (add_movie s now data).2 (add_movie s now data).1).1 =
      some { toMovieData := data, movie_id := (add_movie s now data).1,
             added_at := now, download_count := 0 } := by
  simp only [add_movie, get_movie_details]
  exact lookupKey_setKey_self _ _ _

/-- C8: role resolution precedence — the configured owner identity always
resolves to owner, even when it is also a key of the admin collection;
otherwise admin-collection membership gives admin; otherwise user. -/
theorem get_user_role_precedence (s : Storage) (user_id : Int) :
    (user_id = OWNER_ID → (get_user_role s user_id).1 = "owner") ∧
    (user_id ≠ OWNER_ID → hasKey s.adminsFile (toString user_id) = true →
      (get_user_role s user_id).1 = "admin") ∧
    (user_id ≠ OWNER_ID → hasKey s.adminsFile (toString user_id) = false →
      (get_user_role s user_id).1 = "user") := by
  refine ⟨fun h => ?_, fun h hk => ?_, fun h hk => ?_⟩
  · simp [get_user_role, h]
  · simp [get_user_role, h, hk]
  · simp [get_user_role, h, hk]

/-- An admin record whose identity is the owner's, to exercise the
owner-before-admin precedence. -/
def ownerAsAdmin : Admin :=
  { user_id := OWNER_ID, short_name := "boss", first_name := "Boss",
    username := none, added_at := "2024-01-01T00:00:00" }

/-- A storage whose admin collection contains the owner identity. -/
def storageOwnerAdmin : Storage :=
  { usersFile := [], adminsFile := [(toString OWNER_ID, ownerAsAdmin)],
    moviesFile := { next_id := 1, movies := [] }, channelsFile := [],
    requestsFile := { next_id := 1, requests := [] } }

theorem get_user_role_precedence_witness :
    (get_user_role storageOwnerAdmin OWNER_ID).1 = "owner" ∧
    (get_user_role storageOwnerAdmin 7).1 = "user" :=
  ⟨(get_user_role_precedence storageOwnerAdmin OWNER_ID).1 rfl,
   (get_user_role_precedence storageOwnerAdmin 7).2.2 (by decide) (by decide)⟩

/-- C10: every pure query operation returns the durable storage unchanged:
the translation of each query contains no save, exactly as the source
functions contain no `save_json` call.  In particular
`get_pending_requests` attaches the joined user record only to the
returned in-memory `PendingEntry` values; the requests document it returns
is the one it loaded. -/
theorem queries_leave_storage_unchanged (s : Storage) (uid mid : Int)
    (q letter category cid : String) (limit offset : Nat) :
    (user_exists s uid).2 = s ∧
    (get_user_role s uid).2 = s ∧
    (get_admin_info s uid).2 = s ∧
    (get_all_admins s).2 = s ∧
    (get_movie_details s mid).2 = s ∧
    (search_movies s q limit).2 = s ∧
    (get_movies_by_first_letter s letter limit).2 = s ∧
    (get_movies_by_category s category limit offset).2 = s ∧
    (get_channel_info s cid).2 = s ∧
    (get_all_channels s).2 = s ∧
    (get_pending_requests s limit offset).2 = s ∧
    (get_total_pending_requests_count s).2 = s := by
  refine ⟨rfl, ?_, rfl, rfl, rfl, rfl, rfl, rfl, rfl, rfl, rfl, rfl⟩
  rw [get_user_role]
  split
  · rfl
  · split
    · rfl
    · rfl

/-! ## Sorting and pagination lemmas -/

theorem titleLe_trans : ∀ a b c : Movie,
    titleLe a b → titleLe b c → titleLe a c := by
  intro a b c hab hbc
  simp only [titleLe, decide_eq_true_eq] at hab hbc ⊢
  exact le_trans hab hbc

theorem titleLe_total : ∀ a b : Movie, titleLe a b || titleLe b a := by
  intro a b
  simp only [titleLe, Bool.or_eq_true, decide_eq_true_eq]
  exact le_total _ _

theorem take_add' (l : List α) (m n : Nat) :
    l.take (m + n) = l.take m ++ (l.drop m).take n := by
  conv_lhs => rw [← List.take_append_drop m (l.take (m + n))]
  rw [List.take_take, Nat.min_eq_left (Nat.le_add_right m n),
    ← List.take_drop]

theorem flatMap_range_chunks (l : List α) (L : Nat) :
    ∀ K : Nat, (List.range K).flatMap (fun i => (l.drop (i * L)).take L) =
      l.take (K * L)
  | 0 => by simp
  | K + 1 => by
    rw [List.range_succ, List.flatMap_append, flatMap_range_chunks l L K,
      Nat.succ_mul, take_add']
    simp

/-- C3: the result of a category query is the `[offset, offset+limit)`
slice of the full match set — every movie for the special "all" value,
otherwise exactly the movies whose category-tag list contains the category
as an exact element — sorted ascending by lowercase title. -/
theorem get_movies_by_category_spec (s : Storage) (category : String)
    (limit offset : Nat) :
    ∃ sortedAll : List Movie,
      (∀ m : Movie, m ∈ sortedAll ↔
        (m ∈ values s.moviesFile.movies ∧
          (category = "All 🌐" ∨ category ∈ m.categories))) ∧
      sortedAll.Perm (category_match_list s.moviesFile category) ∧
      sortedAll.Pairwise
        (fun a b : Movie => a.title.toLower ≤ b.title.toLower) ∧
      (get_movies_by_category s category limit offset).1 =
        (sortedAll.drop offset).take limit := by
  refine ⟨sorted_match_list s.moviesFile category, ?_, ?_, ?_, rfl⟩
  · intro m
    rw [sorted_match_list, List.mem_mergeSort, category_match_list]
    by_cases h : category = "All 🌐"
    · simp [h]
    · simp [h]
  · exact List.mergeSort_perm _ _
  · have h := List.sorted_mergeSort titleLe_trans titleLe_total
      (category_match_list s.moviesFile category)
    exact h.imp (fun hab => by simpa [titleLe] using hab)

/-- C4: for a fixed store, category and page size L > 0, concatenating the
pages at offsets 0, L, 2L, ... reconstructs exactly the full sorted match
set — no element duplicated, none missing — and the page at the first
offset at or past the end of the sorted match set is empty. -/
theorem get_movies_by_category_pagination (s : Storage) (category : String)
    (L : Nat) (hL : 0 < L) (K : Nat)
    (hK : (sorted_match_list s.moviesFile category).length ≤ K * L) :
    ((List.range K).flatMap
        (fun i => (get_movies_by_category s category L (i * L)).1) =
      sorted_match_list s.moviesFile category) ∧
    (get_movies_by_category s category L (K * L)).1 = [] := by
  constructor
  · calc (List.range K).flatMap
          (fun i => (get_movies_by_category s category L (i * L)).1)
        = (List.range K).flatMap (fun i =>
            ((sorted_match_list s.moviesFile category).drop (i * L)).take
              L) := rfl
      _ = (sorted_match_list s.moviesFile category).take (K * L) :=
          flatMap_range_chunks (sorted_match_list s.moviesFile category) L K
      _ = sorted_match_list s.moviesFile category :=
          List.take_of_length_le hK
  · show ((sorted_match_list s.moviesFile category).drop (K * L)).take L
        = []
    rw [List.drop_eq_nil_of_le hK, List.take_nil]

/-- A sample movie record, tagged with one category. -/
def sampleMovie (i : Int) (t : String) : Movie :=
  { title := t, categories := ["Action 💥"], languages := ["English"],
    release_year := 2020, runtime := "2h", imdb_rating := "7.5",
    download_links := [], added_by := 11, movie_id := i,
    added_at := "2024-01-01T00:00:00", download_count := 0 }

/-- A storage holding three action movies, mirroring the spec scenario
with titles Zeta, Alpha, Mango. -/
def sampleMoviesDoc : MoviesDoc :=
  { next_id := 4,
    movies := [(1, sampleMovie 1 "Zeta"), (2, sampleMovie 2 "Alpha"),
               (3, sampleMovie 3 "Mango")] }

def sampleMoviesStorage : Storage :=
  { usersFile := [], adminsFile := [], moviesFile := sampleMoviesDoc,
    channelsFile := [],
    requestsFile := { next_id := 1, requests := [] } }

theorem get_movies_by_category_pagination_witness :
    ((List.range 2).flatMap (fun i =>
        (get_movies_by_category sampleMoviesStorage "Action 💥" 2
          (i * 2)).1) =
      sorted_match_list sampleMoviesStorage.moviesFile "Action 💥") ∧
    (get_movies_by_category sampleMoviesStorage "Action 💥" 2 (2 * 2)).1 =
      [] :=
  get_movies_by_category_pagination sampleMoviesStorage "Action 💥" 2
    (by decide) 2
    (by rw [sorted_match_list, List.length_mergeSort]; decide)

/-! ## Pending-request queries -/

theorem reqIdGe_trans : ∀ a b c : PendingEntry,
    reqIdGe a b → reqIdGe b c → reqIdGe a c := by
  intro a b c hab hbc
  simp only [reqIdGe, decide_eq_true_eq] at hab hbc ⊢
  exact le_trans hbc hab

theorem reqIdGe_total : ∀ a b : PendingEntry, reqIdGe a b || reqIdGe b a := by
  intro a b
  simp only [reqIdGe, Bool.or_eq_true, decide_eq_true_eq]
  exact le_total _ _

/-- The request ids of the pending requests, in collection order; the
strictness of the descending order of `get_pending_requests` holds when
these are distinct (always the case for documents produced by
`add_movie_request`, whose keys equal the stored ids). -/
def pending_ids (s : Storage) : List Int :=
  ((values s.requestsFile.requests).filter (fun r =>
      decide (r.status = "pending"))).map (fun r => r.request_id)

/-- C5: `get_pending_requests` returns exactly the pending requests, each
carrying the looked-up user record (absence of the user yields the empty
attached record, never an error), sorted strictly by descending request id
and sliced to `[offset, offset+limit)`. -/
theorem get_pending_requests_spec (s : Storage) (limit offset : Nat)
    (hids : (pending_ids s).Nodup) :
    ∃ sortedPending : List PendingEntry,
      sortedPending.Perm (pending_list s) ∧
      sortedPending.Pairwise
        (fun a b : PendingEntry => b.req.request_id < a.req.request_id) ∧
      (∀ e ∈ (get_pending_requests s limit offset).1,
        e.req.status = "pending" ∧
        e.users = lookupKey s.usersFile e.req.user_id) ∧
      (get_pending_requests s limit offset).1 =
        (sortedPending.drop offset).take limit := by
  refine ⟨(pending_list s).mergeSort reqIdGe, List.mergeSort_perm _ _,
    ?_, ?_, rfl⟩
  · have hle : ((pending_list s).mergeSort reqIdGe).Pairwise
        (fun a b : PendingEntry => b.req.request_id ≤ a.req.request_id) :=
      (List.sorted_mergeSort reqIdGe_trans reqIdGe_total
        (pending_list s)).imp (fun hab => by simpa [reqIdGe] using hab)
    have hne₀ : (pending_list s).Pairwise
        (fun a b : PendingEntry => a.req.request_id ≠ b.req.request_id) := by
      have : (pending_ids s).Nodup := hids
      rw [pending_ids] at this
      have hmap : ((values s.requestsFile.requests).filter (fun r =>
          decide (r.status = "pending"))).map (fun r => r.request_id) =
          (pending_list s).map (fun e => e.req.request_id) := by
        rw [pending_list, List.map_map]
        rfl
      rw [hmap, List.Nodup, List.pairwise_map] at this
      exact this
    have hne : ((pending_list s).mergeSort reqIdGe).Pairwise
        (fun a b : PendingEntry => a.req.request_id ≠ b.req.request_id) :=
      (List.mergeSort_perm (pending_list s) reqIdGe).symm.pairwise hne₀
        (fun h => h.symm)
    exact (hle.and hne).imp
      (fun hab => lt_of_le_of_ne hab.1 (Ne.symm hab.2))
  · intro e he
    have hsorted : e ∈ (pending_list s).mergeSort reqIdGe :=
      List.drop_subset _ _ (List.take_subset _ _ he)
    have hpl : e ∈ pending_list s := List.mem_mergeSort.mp hsorted
    rw [pending_list] at hpl
    rcases List.mem_map.mp hpl with ⟨r, hr, rfl⟩
    rcases List.mem_filter.mp hr with ⟨_, hstat⟩
    exact ⟨by simpa using hstat, rfl⟩

/-- A sample user record. -/
def sampleUser : User :=
  { user_id := 42, first_name := "Ann", username := some "ann",
    joined_at := "2024-01-01T00:00:00", is_active := true }

/-- A sample pending request record. -/
def sampleRequest (i uid : Int) (movie : String) : Request :=
  { request_id := i, user_id := uid, movie_name := movie,
    status := "pending", requested_at := "2024-01-02T00:00:00",
    updated_at := none }

def sampleRequestsDoc : RequestsDoc :=
  { next_id := 3,
    requests := [(1, sampleRequest 1 42 "Inception"),
                 (2, sampleRequest 2 7 "Dune")] }

/-- A storage with two pending requests (the second referencing a user id
that does not resolve), mirroring the spec scenario. -/
def sampleRequestsStorage : Storage :=
  { usersFile := [(42, sampleUser)], adminsFile := [],
    moviesFile := { next_id := 1, movies := [] }, channelsFile := [],
    requestsFile := sampleRequestsDoc }

theorem get_pending_requests_spec_witness :
    (pending_ids sampleRequestsStorage).Nodup ∧
    ∃ sortedPending : List PendingEntry,
      sortedPending.Perm (pending_list sampleRequestsStorage) ∧
      sortedPending.Pairwise
        (fun a b : PendingEntry => b.req.request_id < a.req.request_id) ∧
      (∀ e ∈ (get_pending_requests sampleRequestsStorage 10 0).1,
        e.req.status = "pending" ∧
        e.users = lookupKey sampleRequestsStorage.usersFile
          e.req.user_id) ∧
      (get_pending_requests sampleRequestsStorage 10 0).1 =
        (sortedPending.drop 0).take 10 :=
  ⟨by rw [show pending_ids sampleRequestsStorage = [1, 2] from rfl]; simp,
   get_pending_requests_spec sampleRequestsStorage 10 0
    (by rw [show pending_ids sampleRequestsStorage = [1, 2] from rfl]
        simp)⟩

/-! ## Counter invariants -/

/-- The movies counter strictly exceeds every key of its collection. -/
def moviesCounterOK (doc : MoviesDoc) : Prop :=
  ∀ p ∈ doc.movies, p.1 < doc.next_id

/-- The requests counter strictly exceeds every key of its collection. -/
def requestsCounterOK (doc : RequestsDoc) : Prop :=
  ∀ p ∈ doc.requests, p.1 < doc.next_id

/-- C6: in any state whose counters exceed every existing key, the two
create operations assign an id that is not yet a key, and afterwards the
counter again strictly exceeds the assigned id and every key; and no
operation on the two counter-bearing collections ever decreases a counter
(query operations return the storage unchanged, see the frame theorem). -/
theorem create_fresh_ids_counters_monotone (s : Storage) (now : String)
    (data : MovieData) (uid mid rid : Int) (movie status : String)
    (limit offset : Nat)
    (hm : moviesCounterOK s.moviesFile)
    (hr : requestsCounterOK s.requestsFile) :
    (lookupKey s.moviesFile.movies (add_movie s now data).1 = none) ∧
    moviesCounterOK (add_movie s now data).2.moviesFile ∧
    ((add_movie s now data).1 <
      (add_movie s now data).2.moviesFile.next_id) ∧
    (lookupKey s.requestsFile.requests
      (add_movie_request s now uid movie).1 = none) ∧
    requestsCounterOK (add_movie_request s now uid movie).2.requestsFile ∧
    ((add_movie_request s now uid movie).1 <
      (add_movie_request s now uid movie).2.requestsFile.next_id) ∧
    (s.moviesFile.next_id ≤ (add_movie s now data).2.moviesFile.next_id) ∧
    (s.moviesFile.next_id ≤ (delete_movie s mid).2.moviesFile.next_id) ∧
    (s.moviesFile.next_id ≤
      (increment_download_count s mid).2.moviesFile.next_id) ∧
    (s.requestsFile.next_id ≤
      (add_movie_request s now uid movie).2.requestsFile.next_id) ∧
    (s.requestsFile.next_id ≤
      (update_request_status s now rid status).2.requestsFile.next_id) ∧
    (s.requestsFile.next_id ≤
      (get_pending_requests s limit offset).2.requestsFile.next_id) := by
  refine ⟨?_, ?_, ?_, ?_, ?_, ?_, ?_, ?_, ?_, ?_, ?_, ?_⟩
  · exact lookupKey_eq_none_of_forall (fun p hp => ne_of_lt (hm p hp))
  · intro p hp
    rcases mem_setKey hp with h | h
    · rw [h]
      exact lt_add_one _
    · exact lt_trans (hm p h) (lt_add_one _)
  · exact lt_add_one _
  · exact lookupKey_eq_none_of_forall (fun p hp => ne_of_lt (hr p hp))
  · intro p hp
    rcases mem_setKey hp with h | h
    · rw [h]
      exact lt_add_one _
    · exact lt_trans (hr p h) (lt_add_one _)
  · exact lt_add_one _
  · exact le_of_lt (lt_add_one _)
  · rw [delete_movie]
    split <;> exact le_refl _
  · rw [increment_download_count]
    split <;> exact le_refl _
  · exact le_of_lt (lt_add_one _)
  · rw [update_request_status]
    cases hl : lookupKey s.requestsFile.requests rid <;> simp [hl]
  · exact le_refl _

theorem create_fresh_ids_counters_monotone_witness :
    moviesCounterOK sampleMoviesStorage.moviesFile ∧
    (lookupKey sampleMoviesStorage.moviesFile.movies
      (add_movie sampleMoviesStorage "2024-02-01T00:00:00"
        (sampleMovie 4 "Nova").toMovieData).1 = none) :=
  ⟨by rw [moviesCounterOK]; decide,
   (create_fresh_ids_counters_monotone sampleMoviesStorage
      "2024-02-01T00:00:00" (sampleMovie 4 "Nova").toMovieData 1 1 1
      "m" "fulfilled" 10 0 (by rw [moviesCounterOK]; decide)
      (by rw [requestsCounterOK]; decide)).1⟩

/-! ## Removal by key or short name -/

theorem eraseP_first {p : α → Bool} {l₁ l₂ : List α} {x : α}
    (h₁ : ∀ a ∈ l₁, ¬ p a) (hx : p x) :
    (l₁ ++ x :: l₂).eraseP p = l₁ ++ l₂ := by
  rw [List.eraseP_append_right _ h₁, List.eraseP_cons_of_pos hx]

/-- C9: `remove_admin` and `remove_channel` resolve the identifier first
as an exact key; failing that they delete the first record in collection
order whose short name equals the identifier — exactly one record is
removed and the rest are unchanged — and when neither matches they return
false without mutating.  With two records sharing the short name, one
call removes exactly the first-encountered one. -/
theorem remove_admin_channel_spec (s : Storage) (identifier : String) :
    (∀ l₁ l₂ a, s.adminsFile = l₁ ++ (identifier, a) :: l₂ →
      (∀ q ∈ l₁, q.1 ≠ identifier) →
      remove_admin s identifier =
        (true, { s with adminsFile := l₁ ++ l₂ })) ∧
    (∀ l₁ l₂ k a, s.adminsFile = l₁ ++ (k, a) :: l₂ →
      (∀ q ∈ s.adminsFile, q.1 ≠ identifier) →
      a.short_name = identifier →
      (∀ q ∈ l₁, q.2.short_name ≠ identifier) →
      remove_admin s identifier =
        (true, { s with adminsFile := l₁ ++ l₂ })) ∧
    ((∀ q ∈ s.adminsFile, q.1 ≠ identifier ∧ q.2.short_name ≠ identifier) →
      remove_admin s identifier = (false, s)) ∧
    (∀ l₁ l₂ c, s.channelsFile = l₁ ++ (identifier, c) :: l₂ →
      (∀ q ∈ l₁, q.1 ≠ identifier) →
      remove_channel s identifier =
        (true, { s with channelsFile := l₁ ++ l₂ })) ∧
    (∀ l₁ l₂ k c, s.channelsFile = l₁ ++ (k, c) :: l₂ →
      (∀ q ∈ s.channelsFile, q.1 ≠ identifier) →
      c.short_name = identifier →
      (∀ q ∈ l₁, q.2.short_name ≠ identifier) →
      remove_channel s identifier =
        (true, { s with channelsFile := l₁ ++ l₂ })) ∧
    ((∀ q ∈ s.channelsFile,
        q.1 ≠ identifier ∧ q.2.short_name ≠ identifier) →
      remove_channel s identifier = (false, s)) := by
  refine ⟨?_, ?_, ?_, ?_, ?_, ?_⟩
  · intro l₁ l₂ a hdec hfirst
    have hkey : hasKey s.adminsFile identifier = true := by
      rw [hasKey, List.any_eq_true]
      exact ⟨(identifier, a),
        by rw [hdec]; exact List.mem_append_right _ (List.mem_cons_self _ _),
        by simp⟩
    have herase : eraseKey s.adminsFile identifier = l₁ ++ l₂ := by
      rw [eraseKey, hdec]
      exact eraseP_first (fun q hq => by simpa using hfirst q hq) (by simp)
    rw [remove_admin, if_pos hkey, herase]
  · intro l₁ l₂ k a hdec hnokey hsn hfirst
    have hkey : hasKey s.adminsFile identifier = false := by
      rw [hasKey, List.any_eq_false]
      intro x hx
      simpa using hnokey x hx
    have hany : s.adminsFile.any
        (fun p => decide (p.2.short_name = identifier)) = true := by
      rw [List.any_eq_true]
      exact ⟨(k, a),
        by rw [hdec]; exact List.mem_append_right _ (List.mem_cons_self _ _),
        by simp [hsn]⟩
    have herase : s.adminsFile.eraseP
        (fun p => decide (p.2.short_name = identifier)) = l₁ ++ l₂ := by
      rw [hdec]
      exact eraseP_first (fun q hq => by simpa using hfirst q hq)
        (by simp [hsn])
    rw [remove_admin, if_neg (ne_true_of_eq_false hkey), if_pos hany,
      herase]
  · intro hno
    have hkey : hasKey s.adminsFile identifier = false := by
      rw [hasKey, List.any_eq_false]
      intro x hx
      simpa using (hno x hx).1
    have hany : s.adminsFile.any
        (fun p => decide (p.2.short_name = identifier)) = false := by
      rw [List.any_eq_false]
      intro x hx
      simpa using (hno x hx).2
    rw [remove_admin, if_neg (ne_true_of_eq_false hkey),
      if_neg (ne_true_of_eq_false hany)]
  · intro l₁ l₂ c hdec hfirst
    have hkey : hasKey s.channelsFile identifier = true := by
      rw [hasKey, List.any_eq_true]
      exact ⟨(identifier, c),
        by rw [hdec]; exact List.mem_append_right _ (List.mem_cons_self _ _),
        by simp⟩
    have herase : eraseKey s.channelsFile identifier = l₁ ++ l₂ := by
      rw [eraseKey, hdec]
      exact eraseP_first (fun q hq => by simpa using hfirst q hq) (by simp)
    rw [remove_channel, if_pos hkey, herase]
  · intro l₁ l₂ k c hdec hnokey hsn hfirst
    have hkey : hasKey s.channelsFile identifier = false := by
      rw [hasKey, List.any_eq_false]
      intro x hx
      simpa using hnokey x hx
    have hany : s.channelsFile.any
        (fun p => decide (p.2.short_name = identifier)) = true := by
      rw [List.any_eq_true]
      exact ⟨(k, c),
        by rw [hdec]; exact List.mem_append_right _ (List.mem_cons_self _ _),
        by simp [hsn]⟩
    have herase : s.channelsFile.eraseP
        (fun p => decide (p.2.short_name = identifier)) = l₁ ++ l₂ := by
      rw [hdec]
      exact eraseP_first (fun q hq => by simpa using hfirst q hq)
        (by simp [hsn])
    rw [remove_channel, if_neg (ne_true_of_eq_false hkey), if_pos hany,
      herase]
  · intro hno
    have hkey : hasKey s.channelsFile identifier = false := by
      rw [hasKey, List.any_eq_false]
      intro x hx
      simpa using (hno x hx).1
    have hany : s.channelsFile.any
        (fun p => decide (p.2.short_name = identifier)) = false := by
      rw [List.any_eq_false]
      intro x hx
      simpa using (hno x hx).2
    rw [remove_channel, if_neg (ne_true_of_eq_false hkey),
      if_neg (ne_true_of_eq_false hany)]

/-- Two admins sharing the short name "dup". -/
def sampleAdmin1 : Admin :=
  { user_id := 11, short_name := "dup", first_name := "A",
    username := none, added_at := "t1" }

def sampleAdmin2 : Admin :=
  { user_id := 22, short_name := "dup", first_name := "B",
    username := none, added_at := "t2" }

def sampleAdminsStorage : Storage :=
  { usersFile := [],
    adminsFile := [("11", sampleAdmin1), ("22", sampleAdmin2)],
    moviesFile := { next_id := 1, movies := [] }, channelsFile := [],
    requestsFile := { next_id := 1, requests := [] } }

theorem remove_admin_channel_spec_witness :
    remove_admin sampleAdminsStorage "dup" =
      (true,
        { sampleAdminsStorage with adminsFile := [("22", sampleAdmin2)] }) :=
  (remove_admin_channel_spec sampleAdminsStorage "dup").2.1 []
    [("22", sampleAdmin2)] "11" sampleAdmin1 rfl (by decide) rfl
    (by decide)

end MovieBot
